import Mathlib

/-!
Verification of the thingamajig virtual CPU (src/main.rs).

Shallow embedding conventions:
* machine integers (`u8`, `u16`, `usize`) are `Nat` with the wrapping the
  source's types impose written out explicitly (`% 256`, `% 65536`);
* fallible operations (out-of-bounds array indexing, `panic!`,
  `unreachable!`, `expect`) return `Option`, `none` meaning a panic;
* the fixed array `memory : [u8; MEM_SIZE]` is a total function together
  with the bound check Rust indexing performs: an index `< MEM_SIZE` reads
  the function, any other index is a panic (`none`);
* terminal input is a list of key events, terminal output the list of byte
  values printed so far; the `eprintln!` debug traces go to stderr and are
  not modelled.
-/

namespace Thingamajig

def OP_HALT : Nat := 0x0
def OP_RET : Nat := 0x1
def OP_SHL : Nat := 0x2
def OP_SHR : Nat := 0x3
def OP_ROL : Nat := 0x4
def OP_ROR : Nat := 0x5
def OP_NAND : Nat := 0x6
def OP_AND : Nat := 0x7
def OP_OR : Nat := 0x8
def OP_XOR : Nat := 0x9
def OP_LOAD : Nat := 0xA
def OP_STOR : Nat := 0xB
def OP_BREQ : Nat := 0xC
def OP_BRNE : Nat := 0xD
def OP_CREQ : Nat := 0xE
def OP_CRNE : Nat := 0xF

structure Registers where
  ip : Nat
  rp : Nat
  r0 : Nat
  r1 : Nat
  r2 : Nat
  r3 : Nat
deriving DecidableEq

def Registers.new : Registers :=
  { ip := 0, rp := 0, r0 := 0, r1 := 0, r2 := 0, r3 := 0 }

/-- Embeds `Registers::get`: the `_ => panic!` arm is `none`. -/
def Registers.get (regs : Registers) (r : Nat) : Option Nat :=
  if r = 0 then some regs.r0
  else if r = 1 then some regs.r1
  else if r = 2 then some regs.r2
  else if r = 3 then some regs.r3
  else none

/-- Embeds `Registers::set`: the `_ => panic!` arm is `none`. -/
def Registers.set (regs : Registers) (r : Nat) (value : Nat) : Option Registers :=
  if r = 0 then some { regs with r0 := value }
  else if r = 1 then some { regs with r1 := value }
  else if r = 2 then some { regs with r2 := value }
  else if r = 3 then some { regs with r3 := value }
  else none

/-- Key events delivered by the terminal (`termion::event::Key`),
restricted to the shapes `read_key` distinguishes. -/
inductive Key where
  | char (c : Nat)
  | ctrlC
  | backspace
  | esc
  | null
  | other
deriving DecidableEq

structure Core where
  memory : Nat → Nat
  regs : Registers
  is_halted : Bool
  input : List Key
  output : List Nat

/-- Embeds `Core::MEM_SIZE = u16::MAX as usize`, which is 65535 (not 65536). -/
def MEM_SIZE : Nat := 65535

/-- Embeds `Core::DEV_CHAR = 0xFFFF`. -/
def DEV_CHAR : Nat := 0xFFFF

/-- Embeds `Core::read_key`: an exhausted input stream stands for `keys.next()`
returning `None`, mapped to `Key::Null` hence byte 0; `Ctrl+C` panics
(`none`); every returned character is echoed to the output sink. -/
def read_key (c : Core) : Option (Nat × Core) :=
  match c.input with
  | [] => some (0, { c with output := c.output ++ [0] })
  | k :: rest =>
    match k with
    | Key.char ch => some (ch, { c with input := rest, output := c.output ++ [ch] })
    | Key.ctrlC => none
    | Key.backspace => some (8, { c with input := rest, output := c.output ++ [8] })
    | Key.esc => some (27, { c with input := rest, output := c.output ++ [27] })
    | Key.null => some (0, { c with input := rest, output := c.output ++ [0] })
    | Key.other => some (0, { c with input := rest, output := c.output ++ [0] })

/-- Embeds `Core::mem_write`. The device arm models `char::from_u32(value).expect`:
values that are not scalar values (surrogates, or above 0x10FFFF) panic;
the storage arm is Rust array indexing, in bounds iff `addr < MEM_SIZE`. -/
def mem_write (c : Core) (addr value : Nat) : Option Core :=
  if addr = DEV_CHAR then
    if value < 0xD800 ∨ (0xE000 ≤ value ∧ value < 0x110000) then
      some { c with output := c.output ++ [value] }
    else none
  else if addr < MEM_SIZE then
    some { c with memory := fun i => if i = addr then value else c.memory i }
  else none

/-- Embeds `Core::mem_read`. -/
def mem_read (c : Core) (addr : Nat) : Option (Nat × Core) :=
  if addr = DEV_CHAR then read_key c
  else if addr < MEM_SIZE then some (c.memory addr, c)
  else none

/-- Embeds `Core::load`: `self.memory[..data.len()].copy_from_slice(data)`.
Slicing the 65535-byte array panics iff `data.len() > MEM_SIZE`. -/
def load (c : Core) (data : List Nat) : Option Core :=
  if data.length ≤ MEM_SIZE then
    some { c with memory := fun i => if i < data.length then data.getD i 0 else c.memory i }
  else none

/-- Embeds `Core::next_byte`: reads `memory[ip]` (panicking when `ip` is out of
bounds of the 65535-byte array) and wraps `ip` as a `u16`. -/
def next_byte (c : Core) : Option (Nat × Core) :=
  if c.regs.ip < MEM_SIZE then
    some (c.memory c.regs.ip, { c with regs := { c.regs with ip := (c.regs.ip + 1) % 65536 } })
  else none

/-- Embeds `Core::next_short`: `u16::from_be_bytes([a, b]) = a * 256 + b`. -/
def next_short (c : Core) : Option (Nat × Core) :=
  (next_byte c).bind fun a =>
    (next_byte a.2).map fun b => (a.1 * 256 + b.1, b.2)

/-- Embeds `u8::wrapping_shl(v, 1)`. -/
def wrapping_shl1 (v : Nat) : Nat := v * 2 % 256

/-- Embeds `u8::wrapping_shr(v, 1)`. -/
def wrapping_shr1 (v : Nat) : Nat := v / 2

/-- Embeds `u8::rotate_left(v, 1) = ((v << 1) | (v >> 7))` on 8 bits. -/
def rotate_left1 (v : Nat) : Nat := Nat.lor (v * 2 % 256) (v / 128)

/-- Embeds `u8::rotate_right(v, 1) = ((v >> 1) | (v << 7))` on 8 bits. -/
def rotate_right1 (v : Nat) : Nat := Nat.lor (v / 2) (v * 128 % 256)

/-- Decode results of `Core::step` lines 125-131: opcode and register
selector fields of the instruction byte, the 16-bit operand (0 when the
opcode takes none), and the core after the operand bytes were consumed. -/
structure Decoded where
  opcode : Nat
  r_a : Nat
  r_b : Nat
  addr : Nat
  core : Core

/-- Fetch/decode phase of `Core::step`:
`opcode = (instr >> 4) & 0xF`, `r_a = (instr >> 2) & 0x3`,
`r_b = instr & 0x3`, and `addr = next_short()` iff `opcode > OP_XOR`. -/
def decode (c : Core) : Option Decoded :=
  (next_byte c).bind fun ic =>
    (if ic.1 / 16 % 16 > OP_XOR then next_short ic.2 else some (0, ic.2)).map fun ac =>
      { opcode := ic.1 / 16 % 16, r_a := ic.1 / 4 % 4, r_b := ic.1 % 4
        addr := ac.1, core := ac.2 }

/-- Execute phase of `Core::step` (the `match opcode` block); the
`_ => unreachable!()` arm is `none`. -/
def exec (c : Core) (opcode r_a r_b addr : Nat) : Option Core :=
  if opcode = OP_HALT then some { c with is_halted := true }
  else if opcode = OP_RET then some { c with regs := { c.regs with ip := c.regs.rp } }
  else if opcode = OP_SHL then
    (c.regs.get r_a).bind fun value =>
      (c.regs.set r_a (wrapping_shl1 value)).map fun regs => { c with regs := regs }
  else if opcode = OP_SHR then
    (c.regs.get r_a).bind fun value =>
      (c.regs.set r_a (wrapping_shr1 value)).map fun regs => { c with regs := regs }
  else if opcode = OP_ROL then
    (c.regs.get r_a).bind fun value =>
      (c.regs.set r_a (rotate_left1 value)).map fun regs => { c with regs := regs }
  else if opcode = OP_ROR then
    (c.regs.get r_a).bind fun value =>
      (c.regs.set r_a (rotate_right1 value)).map fun regs => { c with regs := regs }
  else if opcode = OP_NAND then
    (c.regs.get r_a).bind fun val_a => (c.regs.get r_b).bind fun val_b =>
      (c.regs.set r_a (Nat.xor (Nat.land val_a val_b) 255)).map fun regs => { c with regs := regs }
  else if opcode = OP_AND then
    (c.regs.get r_a).bind fun val_a => (c.regs.get r_b).bind fun val_b =>
      (c.regs.set r_a (Nat.land val_a val_b)).map fun regs => { c with regs := regs }
  else if opcode = OP_OR then
    (c.regs.get r_a).bind fun val_a => (c.regs.get r_b).bind fun val_b =>
      (c.regs.set r_a (Nat.lor val_a val_b)).map fun regs => { c with regs := regs }
  else if opcode = OP_XOR then
    (c.regs.get r_a).bind fun val_a => (c.regs.get r_b).bind fun val_b =>
      (c.regs.set r_a (Nat.xor val_a val_b)).map fun regs => { c with regs := regs }
  else if opcode = OP_LOAD then
    (mem_read c addr).bind fun p =>
      (p.2.regs.set r_a p.1).map fun regs => { p.2 with regs := regs }
  else if opcode = OP_STOR then
    (c.regs.get r_a).bind fun value => mem_write c addr value
  else if opcode = OP_CREQ then
    (c.regs.get r_a).bind fun val_a => (c.regs.get r_b).map fun val_b =>
      if val_a = val_b then { c with regs := { c.regs with rp := c.regs.ip, ip := addr } } else c
  else if opcode = OP_CRNE then
    (c.regs.get r_a).bind fun val_a => (c.regs.get r_b).map fun val_b =>
      if val_a ≠ val_b then { c with regs := { c.regs with rp := c.regs.ip, ip := addr } } else c
  else if opcode = OP_BREQ then
    (c.regs.get r_a).bind fun val_a => (c.regs.get r_b).map fun val_b =>
      if val_a = val_b then { c with regs := { c.regs with ip := addr } } else c
  else if opcode = OP_BRNE then
    (c.regs.get r_a).bind fun val_a => (c.regs.get r_b).map fun val_b =>
      if val_a ≠ val_b then { c with regs := { c.regs with ip := addr } } else c
  else none

/-- Embeds `Core::step`: fetch/decode, then execute. -/
def step (c : Core) : Option Core :=
  (decode c).bind fun d => exec d.core d.opcode d.r_a d.r_b d.addr

/-- Runs `n` consecutive invocations of `step` by the driver loop. -/
def steps : Nat → Core → Option Core
  | 0, c => some c
  | n + 1, c => (step c).bind (steps n)

/-- A freshly constructed core (`Core::new`) whose terminal delivers the
given key events: zeroed memory and registers, not halted. -/
def newCore (input : List Key) : Core :=
  { memory := fun _ => 0, regs := Registers.new, is_halted := false
    input := input, output := [] }

def cZero : Core := newCore []

/-- Total register read, used by the check-free variant of `step`:
agrees with `Registers::get` on the selectors 0..3 that can occur. -/
def Registers.getv (regs : Registers) (r : Nat) : Nat :=
  if r = 0 then regs.r0
  else if r = 1 then regs.r1
  else if r = 2 then regs.r2
  else regs.r3

/-- Total register write, used by the check-free variant of `step`:
agrees with `Registers::set` on the selectors 0..3 that can occur. -/
def Registers.setv (regs : Registers) (r : Nat) (value : Nat) : Registers :=
  if r = 0 then { regs with r0 := value }
  else if r = 1 then { regs with r1 := value }
  else if r = 2 then { regs with r2 := value }
  else { regs with r3 := value }

/-- Check-free execute phase, following the spec: the opcode is a full
nibble (`Fin 16`, every value assigned, no unassigned-opcode arm) and
register selectors are accessed without the defensive range check. The
only remaining `none`s are genuine memory/device faults, shared with
`exec`. -/
def execT (c : Core) (op : Fin 16) (r_a r_b addr : Nat) : Option Core :=
  if h0 : op.val = 0 then some { c with is_halted := true }
  else if h1 : op.val = 1 then some { c with regs := { c.regs with ip := c.regs.rp } }
  else if h2 : op.val = 2 then
    some { c with regs := c.regs.setv r_a (wrapping_shl1 (c.regs.getv r_a)) }
  else if h3 : op.val = 3 then
    some { c with regs := c.regs.setv r_a (wrapping_shr1 (c.regs.getv r_a)) }
  else if h4 : op.val = 4 then
    some { c with regs := c.regs.setv r_a (rotate_left1 (c.regs.getv r_a)) }
  else if h5 : op.val = 5 then
    some { c with regs := c.regs.setv r_a (rotate_right1 (c.regs.getv r_a)) }
  else if h6 : op.val = 6 then
    some { c with regs := c.regs.setv r_a (Nat.xor (Nat.land (c.regs.getv r_a) (c.regs.getv r_b)) 255) }
  else if h7 : op.val = 7 then
    some { c with regs := c.regs.setv r_a (Nat.land (c.regs.getv r_a) (c.regs.getv r_b)) }
  else if h8 : op.val = 8 then
    some { c with regs := c.regs.setv r_a (Nat.lor (c.regs.getv r_a) (c.regs.getv r_b)) }
  else if h9 : op.val = 9 then
    some { c with regs := c.regs.setv r_a (Nat.xor (c.regs.getv r_a) (c.regs.getv r_b)) }
  else if h10 : op.val = 10 then
    (mem_read c addr).bind fun p => some { p.2 with regs := p.2.regs.setv r_a p.1 }
  else if h11 : op.val = 11 then mem_write c addr (c.regs.getv r_a)
  else if h12 : op.val = 12 then
    some (if c.regs.getv r_a = c.regs.getv r_b then
      { c with regs := { c.regs with ip := addr } } else c)
  else if h13 : op.val = 13 then
    some (if c.regs.getv r_a ≠ c.regs.getv r_b then
      { c with regs := { c.regs with ip := addr } } else c)
  else if h14 : op.val = 14 then
    some (if c.regs.getv r_a = c.regs.getv r_b then
      { c with regs := { c.regs with rp := c.regs.ip, ip := addr } } else c)
  else if h15 : op.val = 15 then
    some (if c.regs.getv r_a ≠ c.regs.getv r_b then
      { c with regs := { c.regs with rp := c.regs.ip, ip := addr } } else c)
  else False.elim (by have hlt := op.isLt; omega)

/-- Check-free variant of `step`. The decoded opcode nibble is already
below 16; the `% 16` only carries that bound into the `Fin 16` index. -/
def stepT (c : Core) : Option Core :=
  (decode c).bind fun d => execT d.core ⟨d.opcode % 16, by omega⟩ d.r_a d.r_b d.addr

/-- Eight-fold application, the shape the register takes after eight
executions of a one-register opcode. -/
def iter8 (f : Nat → Nat) (v : Nat) : Nat := f (f (f (f (f (f (f (f v)))))))

/-- A core whose whole memory is filled with the instruction byte
`16 * op + 4 * r` (opcode `op`, register selector `r_a = r`, `r_b = 0`)
and whose register `r` starts at `v`. -/
def shiftCore (op r v : Nat) : Core :=
  { memory := fun _ => 16 * op + 4 * r, regs := Registers.new.setv r v
    is_halted := false, input := [], output := [] }

/-- A core whose `ip` sits at the top address 0xFFFF. -/
def cTopIp : Core := { cZero with regs := { Registers.new with ip := 65535 } }

/-- A halted core over zeroed memory. -/
def cHalted : Core := { cZero with is_halted := true }

/-- Concrete program `LOAD r0, [0x1234]` at address 0. -/
def cLoadProg : Core :=
  { cZero with memory := fun a => if a = 0 then 0xA0 else if a = 1 then 0x12 else if a = 2 then 0x34 else 0 }

/-- Concrete program `CREQ r1, r1, 0x0102` at address 0. -/
def cCallProg : Core :=
  { cZero with memory := fun a => if a = 0 then 0xE5 else if a = 1 then 1 else if a = 2 then 2 else 0 }

/-- The zero core after loading the two-byte image `[1, 2]`. -/
def cLoaded12 : Core :=
  { cZero with memory := fun i => if i < 2 then [1, 2].getD i 0 else cZero.memory i }

theorem Registers.get_eq (regs : Registers) (r : Nat) (h : r < 4) :
    regs.get r = some (regs.getv r) := by
  unfold Registers.get Registers.getv
  split_ifs <;> first | rfl | exact absurd h (by omega)

theorem Registers.set_eq (regs : Registers) (r value : Nat) (h : r < 4) :
    regs.set r value = some (regs.setv r value) := by
  unfold Registers.set Registers.setv
  split_ifs <;> first | rfl | exact absurd h (by omega)

theorem Registers.setv_ip (regs : Registers) (r value : Nat) :
    (regs.setv r value).ip = regs.ip := by
  unfold Registers.setv
  split_ifs <;> rfl

theorem Registers.setv_rp (regs : Registers) (r value : Nat) :
    (regs.setv r value).rp = regs.rp := by
  unfold Registers.setv
  split_ifs <;> rfl

/-- C1: refuted by the code. `mem_read`/`mem_write` intercept the device
address, but the backing array only has `u16::MAX = 65535` entries, so the
instruction fetch `memory[ip]` in `next_byte` panics at `ip = 0xFFFF`, and
`step` from such a state faults instead of executing. -/
theorem fetch_faults_at_top_address : next_byte cTopIp = none ∧ step cTopIp = none :=
  ⟨rfl, rfl⟩

/-- C2: refuted by the code. `Core::MEM_SIZE` is `u16::MAX as usize`,
i.e. 65535 bytes, one short of covering the full 16-bit address space. -/
theorem mem_size_value : MEM_SIZE = 65535 ∧ MEM_SIZE ≠ 65536 := by decide

/-- C8: `load` succeeds exactly for images of length at most `MEM_SIZE`,
placing byte `i` at address `i` and leaving the rest of the state
untouched; an image one byte larger than the capacity fails outright
(Rust panics when slicing the array), nothing is partially copied. -/
theorem load_length_spec (c : Core) (data : List Nat) :
    ((load c data).isSome ↔ data.length ≤ MEM_SIZE) ∧
    (data.length = MEM_SIZE + 1 → load c data = none) ∧
    (∀ c2, load c data = some c2 →
      (∀ i, i < data.length → c2.memory i = data.getD i 0) ∧
      (∀ i, data.length ≤ i → c2.memory i = c.memory i) ∧
      c2.regs = c.regs ∧ c2.is_halted = c.is_halted) := by
  unfold load
  by_cases h : data.length ≤ MEM_SIZE
  · refine ⟨by simp [h], fun hlen => absurd h (by omega), ?_⟩
    intro c2 hc2
    rw [if_pos h] at hc2
    injection hc2 with hc2
    subst hc2
    exact ⟨fun i hi => by simp [hi], fun i hi => by simp [Nat.not_lt.mpr hi], rfl, rfl⟩
  · refine ⟨by simp [h], fun _ => by simp [h], ?_⟩
    intro c2 hc2
    rw [if_neg h] at hc2
    exact Option.noConfusion hc2

/-- Witness for C8 at the concrete two-byte image `[1, 2]`. -/
theorem load_length_spec_witness :
    ((load cZero [1, 2]).isSome ↔ 2 ≤ MEM_SIZE) ∧
    load cZero [1, 2] = some cLoaded12 ∧
    cLoaded12.memory 1 = 2 ∧ cLoaded12.memory 7 = 0 := by
  have h := (load_length_spec cZero [1, 2]).2.2 cLoaded12 rfl
  exact ⟨(load_length_spec cZero [1, 2]).1, rfl,
    by simpa using h.1 1 (by decide),
    by simpa [cZero, newCore] using h.2.1 7 (by decide)⟩

set_option maxRecDepth 16384 in
theorem rotate_left1_iter8 : ∀ v < 256, iter8 rotate_left1 v = v := by decide

set_option maxRecDepth 16384 in
theorem rotate_right1_iter8 : ∀ v < 256, iter8 rotate_right1 v = v := by decide

set_option maxRecDepth 16384 in
theorem wrapping_shl1_iter8 : ∀ v < 256, iter8 wrapping_shl1 v = 0 := by decide

set_option maxRecDepth 16384 in
theorem wrapping_shr1_iter8 : ∀ v < 256, iter8 wrapping_shr1 v = 0 := by decide

set_option maxRecDepth 16384 in
/-- C3 counterexample: eight successive SHL steps on a register holding 1
leave 0, not 1, so SHL is not periodic with period 8 (each shift discards
the high bit). -/
theorem shl_not_period8 :
    ¬ ((steps 8 (shiftCore OP_SHL 0 1)).bind (fun c => c.regs.get 0) = some 1) := by decide



theorem Registers.getv_setv_same (regs : Registers) (r v : Nat) :
    (regs.setv r v).getv r = v := by
  unfold Registers.setv Registers.getv
  split_ifs <;> rfl

theorem exec_halt (c : Core) (r_a r_b addr : Nat) :
    exec c OP_HALT r_a r_b addr = some { c with is_halted := true } := rfl

theorem exec_ret (c : Core) (r_a r_b addr : Nat) :
    exec c OP_RET r_a r_b addr = some { c with regs := { c.regs with ip := c.regs.rp } } := rfl

theorem exec_shl (c : Core) (r_a r_b addr : Nat) (hra : r_a < 4) :
    exec c OP_SHL r_a r_b addr =
      some { c with regs := c.regs.setv r_a (wrapping_shl1 (c.regs.getv r_a)) } := by
  unfold exec
  rw [if_neg (by decide), if_neg (by decide), if_pos (by decide),
    Registers.get_eq _ _ hra, Option.some_bind, Registers.set_eq _ _ _ hra, Option.map_some']

theorem exec_shr (c : Core) (r_a r_b addr : Nat) (hra : r_a < 4) :
    exec c OP_SHR r_a r_b addr =
      some { c with regs := c.regs.setv r_a (wrapping_shr1 (c.regs.getv r_a)) } := by
  unfold exec
  rw [if_neg (by decide), if_neg (by decide), if_neg (by decide), if_pos (by decide),
    Registers.get_eq _ _ hra, Option.some_bind, Registers.set_eq _ _ _ hra, Option.map_some']

theorem exec_rol (c : Core) (r_a r_b addr : Nat) (hra : r_a < 4) :
    exec c OP_ROL r_a r_b addr =
      some { c with regs := c.regs.setv r_a (rotate_left1 (c.regs.getv r_a)) } := by
  unfold exec
  rw [if_neg (by decide), if_neg (by decide), if_neg (by decide), if_neg (by decide),
    if_pos (by decide),
    Registers.get_eq _ _ hra, Option.some_bind, Registers.set_eq _ _ _ hra, Option.map_some']

theorem exec_ror (c : Core) (r_a r_b addr : Nat) (hra : r_a < 4) :
    exec c OP_ROR r_a r_b addr =
      some { c with regs := c.regs.setv r_a (rotate_right1 (c.regs.getv r_a)) } := by
  unfold exec
  rw [if_neg (by decide), if_neg (by decide), if_neg (by decide), if_neg (by decide),
    if_neg (by decide), if_pos (by decide),
    Registers.get_eq _ _ hra, Option.some_bind, Registers.set_eq _ _ _ hra, Option.map_some']



theorem exec_nand (c : Core) (r_a r_b addr : Nat) (hra : r_a < 4) (hrb : r_b < 4) :
    exec c OP_NAND r_a r_b addr =
      some { c with regs := c.regs.setv r_a (Nat.xor (Nat.land (c.regs.getv r_a) (c.regs.getv r_b)) 255) } := by
  unfold exec
  rw [if_neg (by decide), if_neg (by decide), if_neg (by decide), if_neg (by decide),
    if_neg (by decide), if_neg (by decide), if_pos (by decide),
    Registers.get_eq _ _ hra, Option.some_bind, Registers.get_eq _ _ hrb, Option.some_bind,
    Registers.set_eq _ _ _ hra, Option.map_some']

theorem exec_and (c : Core) (r_a r_b addr : Nat) (hra : r_a < 4) (hrb : r_b < 4) :
    exec c OP_AND r_a r_b addr =
      some { c with regs := c.regs.setv r_a (Nat.land (c.regs.getv r_a) (c.regs.getv r_b)) } := by
  unfold exec
  rw [if_neg (by decide), if_neg (by decide), if_neg (by decide), if_neg (by decide),
    if_neg (by decide), if_neg (by decide), if_neg (by decide), if_pos (by decide),
    Registers.get_eq _ _ hra, Option.some_bind, Registers.get_eq _ _ hrb, Option.some_bind,
    Registers.set_eq _ _ _ hra, Option.map_some']

theorem exec_or (c : Core) (r_a r_b addr : Nat) (hra : r_a < 4) (hrb : r_b < 4) :
    exec c OP_OR r_a r_b addr =
      some { c with regs := c.regs.setv r_a (Nat.lor (c.regs.getv r_a) (c.regs.getv r_b)) } := by
  unfold exec
  rw [if_neg (by decide), if_neg (by decide), if_neg (by decide), if_neg (by decide),
    if_neg (by decide), if_neg (by decide), if_neg (by decide), if_neg (by decide),
    if_pos (by decide),
    Registers.get_eq _ _ hra, Option.some_bind, Registers.get_eq _ _ hrb, Option.some_bind,
    Registers.set_eq _ _ _ hra, Option.map_some']

theorem exec_xor (c : Core) (r_a r_b addr : Nat) (hra : r_a < 4) (hrb : r_b < 4) :
    exec c OP_XOR r_a r_b addr =
      some { c with regs := c.regs.setv r_a (Nat.xor (c.regs.getv r_a) (c.regs.getv r_b)) } := by
  unfold exec
  rw [if_neg (by decide), if_neg (by decide), if_neg (by decide), if_neg (by decide),
    if_neg (by decide), if_neg (by decide), if_neg (by decide), if_neg (by decide),
    if_neg (by decide), if_pos (by decide),
    Registers.get_eq _ _ hra, Option.some_bind, Registers.get_eq _ _ hrb, Option.some_bind,
    Registers.set_eq _ _ _ hra, Option.map_some']

theorem exec_load (c : Core) (r_a r_b addr : Nat) (hra : r_a < 4) :
    exec c OP_LOAD r_a r_b addr =
      (mem_read c addr).bind fun p => some { p.2 with regs := p.2.regs.setv r_a p.1 } := by
  unfold exec
  rw [if_neg (by decide), if_neg (by decide), if_neg (by decide), if_neg (by decide),
    if_neg (by decide), if_neg (by decide), if_neg (by decide), if_neg (by decide),
    if_neg (by decide), if_neg (by decide), if_pos (by decide)]
  rcases mem_read c addr with _ | p
  · rfl
  · rw [Option.some_bind, Option.some_bind, Registers.set_eq _ _ _ hra, Option.map_some']

theorem exec_stor (c : Core) (r_a r_b addr : Nat) (hra : r_a < 4) :
    exec c OP_STOR r_a r_b addr = mem_write c addr (c.regs.getv r_a) := by
  unfold exec
  rw [if_neg (by decide), if_neg (by decide), if_neg (by decide), if_neg (by decide),
    if_neg (by decide), if_neg (by decide), if_neg (by decide), if_neg (by decide),
    if_neg (by decide), if_neg (by decide), if_neg (by decide), if_pos (by decide),
    Registers.get_eq _ _ hra, Option.some_bind]

theorem exec_creq (c : Core) (r_a r_b addr : Nat) (hra : r_a < 4) (hrb : r_b < 4) :
    exec c OP_CREQ r_a r_b addr =
      some (if c.regs.getv r_a = c.regs.getv r_b then
        { c with regs := { c.regs with rp := c.regs.ip, ip := addr } } else c) := by
  unfold exec
  rw [if_neg (by decide), if_neg (by decide), if_neg (by decide), if_neg (by decide),
    if_neg (by decide), if_neg (by decide), if_neg (by decide), if_neg (by decide),
    if_neg (by decide), if_neg (by decide), if_neg (by decide), if_neg (by decide),
    if_pos (by decide),
    Registers.get_eq _ _ hra, Option.some_bind, Registers.get_eq _ _ hrb, Option.map_some']

theorem exec_crne (c : Core) (r_a r_b addr : Nat) (hra : r_a < 4) (hrb : r_b < 4) :
    exec c OP_CRNE r_a r_b addr =
      some (if c.regs.getv r_a ≠ c.regs.getv r_b then
        { c with regs := { c.regs with rp := c.regs.ip, ip := addr } } else c) := by
  unfold exec
  rw [if_neg (by decide), if_neg (by decide), if_neg (by decide), if_neg (by decide),
    if_neg (by decide), if_neg (by decide), if_neg (by decide), if_neg (by decide),
    if_neg (by decide), if_neg (by decide), if_neg (by decide), if_neg (by decide),
    if_neg (by decide), if_pos (by decide),
    Registers.get_eq _ _ hra, Option.some_bind, Registers.get_eq _ _ hrb, Option.map_some']

theorem exec_breq (c : Core) (r_a r_b addr : Nat) (hra : r_a < 4) (hrb : r_b < 4) :
    exec c OP_BREQ r_a r_b addr =
      some (if c.regs.getv r_a = c.regs.getv r_b then
        { c with regs := { c.regs with ip := addr } } else c) := by
  unfold exec
  rw [if_neg (by decide), if_neg (by decide), if_neg (by decide), if_neg (by decide),
    if_neg (by decide), if_neg (by decide), if_neg (by decide), if_neg (by decide),
    if_neg (by decide), if_neg (by decide), if_neg (by decide), if_neg (by decide),
    if_neg (by decide), if_neg (by decide), if_pos (by decide),
    Registers.get_eq _ _ hra, Option.some_bind, Registers.get_eq _ _ hrb, Option.map_some']

theorem exec_brne (c : Core) (r_a r_b addr : Nat) (hra : r_a < 4) (hrb : r_b < 4) :
    exec c OP_BRNE r_a r_b addr =
      some (if c.regs.getv r_a ≠ c.regs.getv r_b then
        { c with regs := { c.regs with ip := addr } } else c) := by
  unfold exec
  rw [if_neg (by decide), if_neg (by decide), if_neg (by decide), if_neg (by decide),
    if_neg (by decide), if_neg (by decide), if_neg (by decide), if_neg (by decide),
    if_neg (by decide), if_neg (by decide), if_neg (by decide), if_neg (by decide),
    if_neg (by decide), if_neg (by decide), if_neg (by decide), if_pos (by decide),
    Registers.get_eq _ _ hra, Option.some_bind, Registers.get_eq _ _ hrb, Option.map_some']

theorem exec_unassigned (c : Core) (opcode r_a r_b addr : Nat) (hop : 15 < opcode) :
    exec c opcode r_a r_b addr = none := by
  unfold exec OP_HALT OP_RET OP_SHL OP_SHR OP_ROL OP_ROR OP_NAND OP_AND OP_OR OP_XOR OP_LOAD OP_STOR OP_BREQ OP_BRNE OP_CREQ OP_CRNE
  repeat rw [if_neg (by omega)]



theorem next_byte_eq (c : Core) (hip : c.regs.ip < MEM_SIZE) :
    next_byte c = some (c.memory c.regs.ip,
      { c with regs := { c.regs with ip := (c.regs.ip + 1) % 65536 } }) := by
  unfold next_byte
  rw [if_pos hip]

theorem decode_no_operand (c : Core) (hip : c.regs.ip < MEM_SIZE)
    (hop : c.memory c.regs.ip / 16 % 16 ≤ 9) :
    decode c = some
      { opcode := c.memory c.regs.ip / 16 % 16, r_a := c.memory c.regs.ip / 4 % 4
        r_b := c.memory c.regs.ip % 4, addr := 0
        core := { c with regs := { c.regs with ip := (c.regs.ip + 1) % 65536 } } } := by
  unfold decode
  rw [next_byte_eq c hip]
  simp only [Option.some_bind]
  rw [if_neg (by simp only [OP_XOR]; omega), Option.map_some']

theorem decode_operand (c : Core) (hip : c.regs.ip + 2 < MEM_SIZE)
    (hop : 9 < c.memory c.regs.ip / 16 % 16) :
    decode c = some
      { opcode := c.memory c.regs.ip / 16 % 16, r_a := c.memory c.regs.ip / 4 % 4
        r_b := c.memory c.regs.ip % 4
        addr := c.memory (c.regs.ip + 1) * 256 + c.memory (c.regs.ip + 2)
        core := { c with regs := { c.regs with ip := c.regs.ip + 3 } } } := by
  have h1 : (c.regs.ip + 1) % 65536 = c.regs.ip + 1 := by unfold MEM_SIZE at hip; omega
  have h2 : (c.regs.ip + 1 + 1) % 65536 = c.regs.ip + 2 := by unfold MEM_SIZE at hip; omega
  have h3 : (c.regs.ip + 2 + 1) % 65536 = c.regs.ip + 3 := by unfold MEM_SIZE at hip; omega
  have hb1 : (c.regs.ip + 1) % 65536 < MEM_SIZE := by omega
  have hb2 : (c.regs.ip + 1 + 1) % 65536 < MEM_SIZE := by omega
  unfold decode
  rw [next_byte_eq c (by omega)]
  simp only [Option.some_bind]
  rw [if_pos (by simp only [OP_XOR]; omega)]
  unfold next_short
  rw [next_byte_eq _ hb1]
  simp only [Option.some_bind, h1]
  rw [next_byte_eq _ hb2]
  simp only [Option.some_bind, Option.map_some', h1, h2, h3]



theorem Registers.getv_mk_ip (regs : Registers) (x r : Nat) :
    Registers.getv { regs with ip := x } r = regs.getv r := by
  unfold Registers.getv
  split_ifs <;> rfl

/-- Running `n` steps over memory constantly filled with the one-register
opcode `op` acting as `f` on selector `r` applies `f` to that register
`n` times. -/
theorem steps_alu_const (op r : Nat) (f : Nat → Nat) (hr : r < 4) (hop : op ≤ 9)
    (hexec : ∀ (c2 : Core) (rb ad : Nat), exec c2 op r rb ad =
      some { c2 with regs := c2.regs.setv r (f (c2.regs.getv r)) }) :
    ∀ (n : Nat) (c : Core), c.memory = (fun _ => 16 * op + 4 * r) →
      c.regs.ip + n ≤ MEM_SIZE →
      ∃ c2, steps n c = some c2 ∧ c2.regs.getv r = f^[n] (c.regs.getv r) := by
  intro n
  induction n with
  | zero => exact fun c hm hip => ⟨c, rfl, rfl⟩
  | succ n ih =>
    intro c hm hip
    have hinstr : c.memory c.regs.ip = 16 * op + 4 * r := by rw [hm]
    have hopc : c.memory c.regs.ip / 16 % 16 = op := by rw [hinstr]; omega
    have hra : c.memory c.regs.ip / 4 % 4 = r := by rw [hinstr]; omega
    have hd := decode_no_operand c (by omega) (by omega)
    have hstep : step c = some
        { c with regs := (({ c.regs with ip := (c.regs.ip + 1) % 65536 }).setv r
          (f (({ c.regs with ip := (c.regs.ip + 1) % 65536 }).getv r))) } := by
      unfold step
      rw [hd]
      simp only [Option.some_bind]
      rw [hopc, hra, hexec]
    have hip2 : (({ c.regs with ip := (c.regs.ip + 1) % 65536 }).setv r
        (f (({ c.regs with ip := (c.regs.ip + 1) % 65536 }).getv r))).ip
        = (c.regs.ip + 1) % 65536 := Registers.setv_ip _ _ _
    obtain ⟨c2, hs, hval⟩ := ih
      { c with regs := (({ c.regs with ip := (c.regs.ip + 1) % 65536 }).setv r
        (f (({ c.regs with ip := (c.regs.ip + 1) % 65536 }).getv r))) }
      hm (by simp only [hip2]; unfold MEM_SIZE at hip ⊢; omega)
    refine ⟨c2, ?_, ?_⟩
    · simp only [steps]
      rw [hstep, Option.some_bind]
      exact hs
    · rw [hval]
      simp only [Registers.getv_setv_same, Registers.getv_mk_ip]
      rw [Function.iterate_succ_apply]



set_option maxRecDepth 16384 in
/-- C3 amended: ROL and ROR are periodic with period 8 on every starting
byte value, but SHL and SHR are not: eight successive executions of either
shift zero the register regardless of the starting value. -/
theorem rotate_period8_shift_zero (r v : Nat) (hr : r < 4) (hv : v < 256) :
    ((steps 8 (shiftCore OP_ROL r v)).bind fun c => c.regs.get r) = some v ∧
    ((steps 8 (shiftCore OP_ROR r v)).bind fun c => c.regs.get r) = some v ∧
    ((steps 8 (shiftCore OP_SHL r v)).bind fun c => c.regs.get r) = some 0 ∧
    ((steps 8 (shiftCore OP_SHR r v)).bind fun c => c.regs.get r) = some 0 := by
  have hip0 : ∀ op : Nat, (shiftCore op r v).regs.ip + 8 ≤ MEM_SIZE := by
    intro op
    show (Registers.new.setv r v).ip + 8 ≤ MEM_SIZE
    rw [Registers.setv_ip]
    decide
  have hstart : ∀ op : Nat, (shiftCore op r v).regs.getv r = v := by
    intro op
    show (Registers.new.setv r v).getv r = v
    exact Registers.getv_setv_same _ _ _
  obtain ⟨c1, hs1, hv1⟩ := steps_alu_const OP_ROL r rotate_left1 hr (by decide)
    (fun c2 rb ad => exec_rol c2 r rb ad hr) 8 (shiftCore OP_ROL r v) rfl (hip0 _)
  obtain ⟨c2, hs2, hv2⟩ := steps_alu_const OP_ROR r rotate_right1 hr (by decide)
    (fun c2 rb ad => exec_ror c2 r rb ad hr) 8 (shiftCore OP_ROR r v) rfl (hip0 _)
  obtain ⟨c3, hs3, hv3⟩ := steps_alu_const OP_SHL r wrapping_shl1 hr (by decide)
    (fun c2 rb ad => exec_shl c2 r rb ad hr) 8 (shiftCore OP_SHL r v) rfl (hip0 _)
  obtain ⟨c4, hs4, hv4⟩ := steps_alu_const OP_SHR r wrapping_shr1 hr (by decide)
    (fun c2 rb ad => exec_shr c2 r rb ad hr) 8 (shiftCore OP_SHR r v) rfl (hip0 _)
  refine ⟨?_, ?_, ?_, ?_⟩
  · rw [hs1]
    simp only [Option.some_bind]
    rw [Registers.get_eq _ _ hr, hv1, hstart]
    exact congrArg some ((show rotate_left1^[8] v = iter8 rotate_left1 v from rfl).trans
      (rotate_left1_iter8 v hv))
  · rw [hs2]
    simp only [Option.some_bind]
    rw [Registers.get_eq _ _ hr, hv2, hstart]
    exact congrArg some ((show rotate_right1^[8] v = iter8 rotate_right1 v from rfl).trans
      (rotate_right1_iter8 v hv))
  · rw [hs3]
    simp only [Option.some_bind]
    rw [Registers.get_eq _ _ hr, hv3, hstart]
    exact congrArg some ((show wrapping_shl1^[8] v = iter8 wrapping_shl1 v from rfl).trans
      (wrapping_shl1_iter8 v hv))
  · rw [hs4]
    simp only [Option.some_bind]
    rw [Registers.get_eq _ _ hr, hv4, hstart]
    exact congrArg some ((show wrapping_shr1^[8] v = iter8 wrapping_shr1 v from rfl).trans
      (wrapping_shr1_iter8 v hv))

/-- Witness for C3 (amended) at register 1 starting from value 3. -/
theorem rotate_period8_shift_zero_witness :
    1 < 4 ∧ 3 < 256 ∧
    ((steps 8 (shiftCore OP_ROL 1 3)).bind fun c => c.regs.get 1) = some 3 :=
  ⟨by decide, by decide, (rotate_period8_shift_zero 1 3 (by decide) (by decide)).1⟩




/-- C4: whenever a no-operand opcode (nibble 0x0-0x9) is fetched, `step`
executes it: `ip` advances by exactly 1 (RET then redirects it to `rp`),
and `rp`, the whole memory, and the device streams are untouched; only the
opcode's documented register/flag effect remains. -/
theorem step_no_operand_frame (c : Core)
    (hip : c.regs.ip < MEM_SIZE)
    (hop : c.memory c.regs.ip / 16 % 16 ≤ 9) :
    ∃ c2, step c = some c2 ∧
      c2.memory = c.memory ∧
      c2.input = c.input ∧
      c2.output = c.output ∧
      c2.regs.rp = c.regs.rp ∧
      (c.memory c.regs.ip / 16 % 16 = 1 → c2.regs.ip = c.regs.rp) ∧
      (c.memory c.regs.ip / 16 % 16 ≠ 1 → c2.regs.ip = (c.regs.ip + 1) % 65536) := by
  have hra4 : c.memory c.regs.ip / 4 % 4 < 4 := by omega
  have hrb4 : c.memory c.regs.ip % 4 < 4 := by omega
  unfold step
  rw [decode_no_operand c hip hop]
  simp only [Option.some_bind]
  set k := c.memory c.regs.ip / 16 % 16 with hk
  interval_cases k
  · exact ⟨_, exec_halt _ _ _ _, rfl, rfl, rfl, rfl, fun h => absurd h (by decide), fun _ => rfl⟩
  · exact ⟨_, exec_ret _ _ _ _, rfl, rfl, rfl, rfl, fun _ => rfl, fun h => absurd rfl h⟩
  · exact ⟨_, exec_shl _ _ _ _ hra4, rfl, rfl, rfl, Registers.setv_rp _ _ _,
      fun h => absurd h (by decide), fun _ => Registers.setv_ip _ _ _⟩
  · exact ⟨_, exec_shr _ _ _ _ hra4, rfl, rfl, rfl, Registers.setv_rp _ _ _,
      fun h => absurd h (by decide), fun _ => Registers.setv_ip _ _ _⟩
  · exact ⟨_, exec_rol _ _ _ _ hra4, rfl, rfl, rfl, Registers.setv_rp _ _ _,
      fun h => absurd h (by decide), fun _ => Registers.setv_ip _ _ _⟩
  · exact ⟨_, exec_ror _ _ _ _ hra4, rfl, rfl, rfl, Registers.setv_rp _ _ _,
      fun h => absurd h (by decide), fun _ => Registers.setv_ip _ _ _⟩
  · exact ⟨_, exec_nand _ _ _ _ hra4 hrb4, rfl, rfl, rfl, Registers.setv_rp _ _ _,
      fun h => absurd h (by decide), fun _ => Registers.setv_ip _ _ _⟩
  · exact ⟨_, exec_and _ _ _ _ hra4 hrb4, rfl, rfl, rfl, Registers.setv_rp _ _ _,
      fun h => absurd h (by decide), fun _ => Registers.setv_ip _ _ _⟩
  · exact ⟨_, exec_or _ _ _ _ hra4 hrb4, rfl, rfl, rfl, Registers.setv_rp _ _ _,
      fun h => absurd h (by decide), fun _ => Registers.setv_ip _ _ _⟩
  · exact ⟨_, exec_xor _ _ _ _ hra4 hrb4, rfl, rfl, rfl, Registers.setv_rp _ _ _,
      fun h => absurd h (by decide), fun _ => Registers.setv_ip _ _ _⟩

/-- Witness for C4: a HALT instruction at address 0 of the zero core. -/
theorem step_no_operand_frame_witness :
    cZero.regs.ip < MEM_SIZE ∧ cZero.memory cZero.regs.ip / 16 % 16 ≤ 9 ∧
    ∃ c2, step cZero = some c2 ∧ c2.regs.ip = (cZero.regs.ip + 1) % 65536 := by
  obtain ⟨c2, h1, h2, h3, h4, h5, h6, h7⟩ := step_no_operand_frame cZero (by decide) (by decide)
  exact ⟨by decide, by decide, c2, h1, h7 (by decide)⟩

/-- C7: an opcode nibble at most OP_XOR (0x9) consumes no operand bytes
(`addr = 0`, `ip` advances by exactly 1), while every opcode above OP_XOR
fetches two further bytes, advances `ip` by exactly 3 in total before any
redirection, and combines the bytes big-endian (first byte high) into the
16-bit operand. -/
theorem decode_operand_classes (c : Core) :
    (c.regs.ip < MEM_SIZE → c.memory c.regs.ip / 16 % 16 ≤ 9 →
      decode c = some
        { opcode := c.memory c.regs.ip / 16 % 16, r_a := c.memory c.regs.ip / 4 % 4
          r_b := c.memory c.regs.ip % 4, addr := 0
          core := { c with regs := { c.regs with ip := (c.regs.ip + 1) % 65536 } } }) ∧
    (c.regs.ip + 2 < MEM_SIZE → 9 < c.memory c.regs.ip / 16 % 16 →
      decode c = some
        { opcode := c.memory c.regs.ip / 16 % 16, r_a := c.memory c.regs.ip / 4 % 4
          r_b := c.memory c.regs.ip % 4
          addr := c.memory (c.regs.ip + 1) * 256 + c.memory (c.regs.ip + 2)
          core := { c with regs := { c.regs with ip := c.regs.ip + 3 } } }) :=
  ⟨fun h1 h2 => decode_no_operand c h1 h2, fun h1 h2 => decode_operand c h1 h2⟩

/-- Witness for C7: `LOAD r0, [0x1234]` at address 0 consumes 3 bytes. -/
theorem decode_operand_classes_witness :
    cLoadProg.regs.ip + 2 < MEM_SIZE ∧ 9 < cLoadProg.memory cLoadProg.regs.ip / 16 % 16 ∧
    decode cLoadProg = some
      { opcode := 10, r_a := 0, r_b := 0, addr := 0x1234
        core := { cLoadProg with regs := { cLoadProg.regs with ip := 3 } } } := by
  refine ⟨by decide, by decide, ?_⟩
  rw [(decode_operand_classes cLoadProg).2 (by decide) (by decide)]
  rfl




/-- C6: for a fetched branch/call opcode (0xC-0xF) with register values
`va`, `vb`, `step` redirects `ip` to the big-endian operand address
exactly when the opcode's condition (equality for BREQ/CREQ, inequality
for BRNE/CRNE) holds, and otherwise falls through to the next instruction
at `ip + 3`; CREQ/CRNE additionally save that fall-through address
(the `ip` value after the operand bytes were consumed) into `rp` exactly
when they branch, and `rp` is untouched in every other case; memory, the
halt flag, the device streams, and all four general registers are
untouched. -/
theorem step_branch_call_spec (c : Core) (va vb : Nat)
    (hip : c.regs.ip + 2 < MEM_SIZE)
    (hop : 11 < c.memory c.regs.ip / 16 % 16)
    (hva : c.regs.get (c.memory c.regs.ip / 4 % 4) = some va)
    (hvb : c.regs.get (c.memory c.regs.ip % 4) = some vb) :
    ∃ c2, step c = some c2 ∧
      c2.memory = c.memory ∧ c2.is_halted = c.is_halted ∧
      c2.input = c.input ∧ c2.output = c.output ∧
      c2.regs.r0 = c.regs.r0 ∧ c2.regs.r1 = c.regs.r1 ∧
      c2.regs.r2 = c.regs.r2 ∧ c2.regs.r3 = c.regs.r3 ∧
      c2.regs.ip = (if (c.memory c.regs.ip / 16 % 16 = 12 ∨ c.memory c.regs.ip / 16 % 16 = 14) ∧ va = vb
          ∨ (c.memory c.regs.ip / 16 % 16 = 13 ∨ c.memory c.regs.ip / 16 % 16 = 15) ∧ va ≠ vb
        then c.memory (c.regs.ip + 1) * 256 + c.memory (c.regs.ip + 2)
        else c.regs.ip + 3) ∧
      c2.regs.rp = (if c.memory c.regs.ip / 16 % 16 = 14 ∧ va = vb
          ∨ c.memory c.regs.ip / 16 % 16 = 15 ∧ va ≠ vb
        then c.regs.ip + 3 else c.regs.rp) := by
  have hra4 : c.memory c.regs.ip / 4 % 4 < 4 := by omega
  have hrb4 : c.memory c.regs.ip % 4 < 4 := by omega
  have h16 : c.memory c.regs.ip / 16 % 16 < 16 := by omega
  have hva' : c.regs.getv (c.memory c.regs.ip / 4 % 4) = va := by
    have h := Registers.get_eq c.regs _ hra4
    rw [hva] at h
    exact (Option.some.inj h).symm
  have hvb' : c.regs.getv (c.memory c.regs.ip % 4) = vb := by
    have h := Registers.get_eq c.regs _ hrb4
    rw [hvb] at h
    exact (Option.some.inj h).symm
  unfold step
  rw [decode_operand c hip (by omega)]
  simp only [Option.some_bind]
  set k := c.memory c.regs.ip / 16 % 16 with hk
  interval_cases k
  · -- BREQ (0xC)
    have hexec := exec_breq { c with regs := { c.regs with ip := c.regs.ip + 3 } }
      (c.memory c.regs.ip / 4 % 4) (c.memory c.regs.ip % 4)
      (c.memory (c.regs.ip + 1) * 256 + c.memory (c.regs.ip + 2)) hra4 hrb4
    simp only [Registers.getv_mk_ip, hva', hvb'] at hexec
    rcases eq_or_ne va vb with hvv | hvv
    · rw [if_pos hvv] at hexec
      refine ⟨_, hexec, rfl, rfl, rfl, rfl, rfl, rfl, rfl, rfl, ?_, ?_⟩
      · rw [if_pos (Or.inl ⟨Or.inl rfl, hvv⟩)]
      · rw [if_neg (by simp)]
    · rw [if_neg hvv] at hexec
      refine ⟨_, hexec, rfl, rfl, rfl, rfl, rfl, rfl, rfl, rfl, ?_, ?_⟩
      · rw [if_neg (by simp [hvv])]
      · rw [if_neg (by simp [hvv])]
  · -- BRNE (0xD)
    have hexec := exec_brne { c with regs := { c.regs with ip := c.regs.ip + 3 } }
      (c.memory c.regs.ip / 4 % 4) (c.memory c.regs.ip % 4)
      (c.memory (c.regs.ip + 1) * 256 + c.memory (c.regs.ip + 2)) hra4 hrb4
    simp only [Registers.getv_mk_ip, hva', hvb'] at hexec
    rcases eq_or_ne va vb with hvv | hvv
    · rw [if_neg (by simp [hvv])] at hexec
      refine ⟨_, hexec, rfl, rfl, rfl, rfl, rfl, rfl, rfl, rfl, ?_, ?_⟩
      · rw [if_neg (by simp [hvv])]
      · rw [if_neg (by simp [hvv])]
    · rw [if_pos hvv] at hexec
      refine ⟨_, hexec, rfl, rfl, rfl, rfl, rfl, rfl, rfl, rfl, ?_, ?_⟩
      · rw [if_pos (Or.inr ⟨Or.inl rfl, hvv⟩)]
      · rw [if_neg (by simp [hvv])]
  · -- CREQ (0xE)
    have hexec := exec_creq { c with regs := { c.regs with ip := c.regs.ip + 3 } }
      (c.memory c.regs.ip / 4 % 4) (c.memory c.regs.ip % 4)
      (c.memory (c.regs.ip + 1) * 256 + c.memory (c.regs.ip + 2)) hra4 hrb4
    simp only [Registers.getv_mk_ip, hva', hvb'] at hexec
    rcases eq_or_ne va vb with hvv | hvv
    · rw [if_pos hvv] at hexec
      refine ⟨_, hexec, rfl, rfl, rfl, rfl, rfl, rfl, rfl, rfl, ?_, ?_⟩
      · rw [if_pos (Or.inl ⟨Or.inr rfl, hvv⟩)]
      · rw [if_pos (Or.inl ⟨rfl, hvv⟩)]
    · rw [if_neg hvv] at hexec
      refine ⟨_, hexec, rfl, rfl, rfl, rfl, rfl, rfl, rfl, rfl, ?_, ?_⟩
      · rw [if_neg (by simp [hvv])]
      · rw [if_neg (by simp [hvv])]
  · -- CRNE (0xF)
    have hexec := exec_crne { c with regs := { c.regs with ip := c.regs.ip + 3 } }
      (c.memory c.regs.ip / 4 % 4) (c.memory c.regs.ip % 4)
      (c.memory (c.regs.ip + 1) * 256 + c.memory (c.regs.ip + 2)) hra4 hrb4
    simp only [Registers.getv_mk_ip, hva', hvb'] at hexec
    rcases eq_or_ne va vb with hvv | hvv
    · rw [if_neg (by simp [hvv])] at hexec
      refine ⟨_, hexec, rfl, rfl, rfl, rfl, rfl, rfl, rfl, rfl, ?_, ?_⟩
      · rw [if_neg (by simp [hvv])]
      · rw [if_neg (by simp [hvv])]
    · rw [if_pos hvv] at hexec
      refine ⟨_, hexec, rfl, rfl, rfl, rfl, rfl, rfl, rfl, rfl, ?_, ?_⟩
      · rw [if_pos (Or.inr ⟨Or.inr rfl, hvv⟩)]
      · rw [if_pos (Or.inr ⟨rfl, hvv⟩)]

/-- Witness for C6: `CREQ r1, r1, 0x0102` at address 0 — the equality of a
register with itself holds, so the call is taken: `ip` becomes 0x0102 and
`rp` becomes 3, the fall-through address. -/
theorem step_branch_call_spec_witness :
    cCallProg.regs.ip + 2 < MEM_SIZE ∧ 11 < cCallProg.memory cCallProg.regs.ip / 16 % 16 ∧
    ∃ c2, step cCallProg = some c2 ∧ c2.regs.ip = 258 ∧ c2.regs.rp = 3 := by
  obtain ⟨c2, h1, h2, h3, h4, h5, h6, h7, h8, h9, hipe, hrpe⟩ :=
    step_branch_call_spec cCallProg 0 0 (by decide) (by decide) (by decide) (by decide)
  rw [if_pos (by decide)] at hipe
  rw [if_pos (by decide)] at hrpe
  exact ⟨by decide, by decide, c2, h1, by rw [hipe]; decide, by rw [hrpe]; decide⟩




theorem next_byte_facts (c : Core) (p : Nat × Core) (h : next_byte c = some p) :
    c.regs.ip < MEM_SIZE ∧ p.1 = c.memory c.regs.ip ∧
    p.2.memory = c.memory ∧ p.2.is_halted = c.is_halted ∧
    p.2.input = c.input ∧ p.2.output = c.output := by
  unfold next_byte at h
  split_ifs at h with hip
  · obtain rfl := Option.some.inj h
    exact ⟨hip, rfl, rfl, rfl, rfl, rfl⟩

theorem next_short_facts (c : Core) (p : Nat × Core) (h : next_short c = some p) :
    p.2.memory = c.memory ∧ p.2.is_halted = c.is_halted ∧
    p.2.input = c.input ∧ p.2.output = c.output := by
  unfold next_short at h
  rcases hnb1 : next_byte c with _ | a
  · rw [hnb1] at h
    exact absurd h (by simp)
  · rw [hnb1] at h
    simp only [Option.some_bind] at h
    rcases hnb2 : next_byte a.2 with _ | b
    · rw [hnb2] at h
      exact absurd h (by simp)
    · rw [hnb2] at h
      simp only [Option.map_some'] at h
      obtain rfl := Option.some.inj h
      obtain ⟨-, -, hm1, hh1, hi1, ho1⟩ := next_byte_facts _ _ hnb1
      obtain ⟨-, -, hm2, hh2, hi2, ho2⟩ := next_byte_facts _ _ hnb2
      exact ⟨hm2.trans hm1, hh2.trans hh1, hi2.trans hi1, ho2.trans ho1⟩

theorem decode_facts (c : Core) (d : Decoded) (h : decode c = some d) :
    d.opcode = c.memory c.regs.ip / 16 % 16 ∧ d.r_a = c.memory c.regs.ip / 4 % 4 ∧
    d.r_b = c.memory c.regs.ip % 4 ∧ c.regs.ip < MEM_SIZE ∧
    d.core.memory = c.memory ∧ d.core.is_halted = c.is_halted ∧
    d.core.input = c.input ∧ d.core.output = c.output := by
  unfold decode at h
  rcases hnb : next_byte c with _ | ic
  · rw [hnb] at h
    exact absurd h (by simp)
  · rw [hnb] at h
    simp only [Option.some_bind] at h
    obtain ⟨hip, hv, hm1, hh1, hi1, ho1⟩ := next_byte_facts _ _ hnb
    rcases hns : (if ic.1 / 16 % 16 > OP_XOR then next_short ic.2 else some (0, ic.2)) with _ | ac
    · rw [hns] at h
      exact absurd h (by simp)
    · rw [hns] at h
      simp only [Option.map_some'] at h
      obtain rfl := Option.some.inj h
      have hcore : ac.2.memory = c.memory ∧ ac.2.is_halted = c.is_halted ∧
          ac.2.input = c.input ∧ ac.2.output = c.output := by
        by_cases hcond : ic.1 / 16 % 16 > OP_XOR
        · rw [if_pos hcond] at hns
          obtain ⟨hm2, hh2, hi2, ho2⟩ := next_short_facts _ _ hns
          exact ⟨hm2.trans hm1, hh2.trans hh1, hi2.trans hi1, ho2.trans ho1⟩
        · rw [if_neg hcond] at hns
          obtain rfl := Option.some.inj hns
          exact ⟨hm1, hh1, hi1, ho1⟩
      exact ⟨by rw [hv], by rw [hv], by rw [hv], hip, hcore.1, hcore.2.1, hcore.2.2.1, hcore.2.2.2⟩




theorem mem_read_halted (c : Core) (a : Nat) (p : Nat × Core)
    (h : mem_read c a = some p) : p.2.is_halted = c.is_halted := by
  unfold mem_read at h
  split_ifs at h with hdev hlt
  · unfold read_key at h
    rcases hin : c.input with _ | ⟨k, rest⟩
    · rw [hin] at h
      obtain rfl := Option.some.inj h
      rfl
    · rw [hin] at h
      cases k
      · obtain rfl := Option.some.inj h
        rfl
      · exact absurd h (by simp)
      · obtain rfl := Option.some.inj h
        rfl
      · obtain rfl := Option.some.inj h
        rfl
      · obtain rfl := Option.some.inj h
        rfl
      · obtain rfl := Option.some.inj h
        rfl
  · obtain rfl := Option.some.inj h
    rfl

theorem mem_write_halted (c : Core) (a v : Nat) (c2 : Core)
    (h : mem_write c a v = some c2) : c2.is_halted = c.is_halted := by
  unfold mem_write at h
  split_ifs at h
  · obtain rfl := Option.some.inj h
    rfl
  · obtain rfl := Option.some.inj h
    rfl


theorem exec_halted (c : Core) (op r_a r_b addr : Nat) (c2 : Core)
    (h : exec c op r_a r_b addr = some c2) :
    c2.is_halted = (if op = 0 then true else c.is_halted) := by
  by_cases hlt : op < 16
  · interval_cases op
    · simp only [exec, OP_HALT, OP_RET, OP_SHL, OP_SHR, OP_ROL, OP_ROR, OP_NAND, OP_AND, OP_OR, OP_XOR, OP_LOAD, OP_STOR, OP_BREQ, OP_BRNE, OP_CREQ, OP_CRNE, reduceIte] at h
      obtain rfl := Option.some.inj h
      rfl
    · simp only [exec, OP_HALT, OP_RET, OP_SHL, OP_SHR, OP_ROL, OP_ROR, OP_NAND, OP_AND, OP_OR, OP_XOR, OP_LOAD, OP_STOR, OP_BREQ, OP_BRNE, OP_CREQ, OP_CRNE, reduceIte] at h
      rw [if_neg (by decide)] at h
      obtain rfl := Option.some.inj h
      rfl
    · simp only [exec, OP_HALT, OP_RET, OP_SHL, OP_SHR, OP_ROL, OP_ROR, OP_NAND, OP_AND, OP_OR, OP_XOR, OP_LOAD, OP_STOR, OP_BREQ, OP_BRNE, OP_CREQ, OP_CRNE, reduceIte] at h
      rw [if_neg (by decide), if_neg (by decide)] at h
      simp only [Option.bind_eq_some, Option.map_eq_some'] at h
      obtain ⟨v, hv, regs, hregs, rfl⟩ := h
      rfl
    · simp only [exec, OP_HALT, OP_RET, OP_SHL, OP_SHR, OP_ROL, OP_ROR, OP_NAND, OP_AND, OP_OR, OP_XOR, OP_LOAD, OP_STOR, OP_BREQ, OP_BRNE, OP_CREQ, OP_CRNE, reduceIte] at h
      rw [if_neg (by decide), if_neg (by decide), if_neg (by decide)] at h
      simp only [Option.bind_eq_some, Option.map_eq_some'] at h
      obtain ⟨v, hv, regs, hregs, rfl⟩ := h
      rfl
    · simp only [exec, OP_HALT, OP_RET, OP_SHL, OP_SHR, OP_ROL, OP_ROR, OP_NAND, OP_AND, OP_OR, OP_XOR, OP_LOAD, OP_STOR, OP_BREQ, OP_BRNE, OP_CREQ, OP_CRNE, reduceIte] at h
      rw [if_neg (by decide), if_neg (by decide), if_neg (by decide), if_neg (by decide)] at h
      simp only [Option.bind_eq_some, Option.map_eq_some'] at h
      obtain ⟨v, hv, regs, hregs, rfl⟩ := h
      rfl
    · simp only [exec, OP_HALT, OP_RET, OP_SHL, OP_SHR, OP_ROL, OP_ROR, OP_NAND, OP_AND, OP_OR, OP_XOR, OP_LOAD, OP_STOR, OP_BREQ, OP_BRNE, OP_CREQ, OP_CRNE, reduceIte] at h
      rw [if_neg (by decide), if_neg (by decide), if_neg (by decide), if_neg (by decide), if_neg (by decide)] at h
      simp only [Option.bind_eq_some, Option.map_eq_some'] at h
      obtain ⟨v, hv, regs, hregs, rfl⟩ := h
      rfl
    · simp only [exec, OP_HALT, OP_RET, OP_SHL, OP_SHR, OP_ROL, OP_ROR, OP_NAND, OP_AND, OP_OR, OP_XOR, OP_LOAD, OP_STOR, OP_BREQ, OP_BRNE, OP_CREQ, OP_CRNE, reduceIte] at h
      rw [if_neg (by decide), if_neg (by decide), if_neg (by decide), if_neg (by decide), if_neg (by decide), if_neg (by decide)] at h
      simp only [Option.bind_eq_some, Option.map_eq_some'] at h
      obtain ⟨va, hva, vb, hvb, regs, hregs, rfl⟩ := h
      rfl
    · simp only [exec, OP_HALT, OP_RET, OP_SHL, OP_SHR, OP_ROL, OP_ROR, OP_NAND, OP_AND, OP_OR, OP_XOR, OP_LOAD, OP_STOR, OP_BREQ, OP_BRNE, OP_CREQ, OP_CRNE, reduceIte] at h
      rw [if_neg (by decide), if_neg (by decide), if_neg (by decide), if_neg (by decide), if_neg (by decide), if_neg (by decide), if_neg (by decide)] at h
      simp only [Option.bind_eq_some, Option.map_eq_some'] at h
      obtain ⟨va, hva, vb, hvb, regs, hregs, rfl⟩ := h
      rfl
    · simp only [exec, OP_HALT, OP_RET, OP_SHL, OP_SHR, OP_ROL, OP_ROR, OP_NAND, OP_AND, OP_OR, OP_XOR, OP_LOAD, OP_STOR, OP_BREQ, OP_BRNE, OP_CREQ, OP_CRNE, reduceIte] at h
      rw [if_neg (by decide), if_neg (by decide), if_neg (by decide), if_neg (by decide), if_neg (by decide), if_neg (by decide), if_neg (by decide), if_neg (by decide)] at h
      simp only [Option.bind_eq_some, Option.map_eq_some'] at h
      obtain ⟨va, hva, vb, hvb, regs, hregs, rfl⟩ := h
      rfl
    · simp only [exec, OP_HALT, OP_RET, OP_SHL, OP_SHR, OP_ROL, OP_ROR, OP_NAND, OP_AND, OP_OR, OP_XOR, OP_LOAD, OP_STOR, OP_BREQ, OP_BRNE, OP_CREQ, OP_CRNE, reduceIte] at h
      rw [if_neg (by decide), if_neg (by decide), if_neg (by decide), if_neg (by decide), if_neg (by decide), if_neg (by decide), if_neg (by decide), if_neg (by decide), if_neg (by decide)] at h
      simp only [Option.bind_eq_some, Option.map_eq_some'] at h
      obtain ⟨va, hva, vb, hvb, regs, hregs, rfl⟩ := h
      rfl
    · simp only [exec, OP_HALT, OP_RET, OP_SHL, OP_SHR, OP_ROL, OP_ROR, OP_NAND, OP_AND, OP_OR, OP_XOR, OP_LOAD, OP_STOR, OP_BREQ, OP_BRNE, OP_CREQ, OP_CRNE, reduceIte] at h
      rw [if_neg (by decide), if_neg (by decide), if_neg (by decide), if_neg (by decide), if_neg (by decide), if_neg (by decide), if_neg (by decide), if_neg (by decide), if_neg (by decide), if_neg (by decide)] at h
      simp only [Option.bind_eq_some, Option.map_eq_some'] at h
      obtain ⟨p, hp, regs, hregs, rfl⟩ := h
      exact mem_read_halted _ _ _ hp
    · simp only [exec, OP_HALT, OP_RET, OP_SHL, OP_SHR, OP_ROL, OP_ROR, OP_NAND, OP_AND, OP_OR, OP_XOR, OP_LOAD, OP_STOR, OP_BREQ, OP_BRNE, OP_CREQ, OP_CRNE, reduceIte] at h
      rw [if_neg (by decide), if_neg (by decide), if_neg (by decide), if_neg (by decide), if_neg (by decide), if_neg (by decide), if_neg (by decide), if_neg (by decide), if_neg (by decide), if_neg (by decide), if_neg (by decide)] at h
      simp only [Option.bind_eq_some] at h
      obtain ⟨v, hv, hw⟩ := h
      exact mem_write_halted _ _ _ _ hw
    · simp only [exec, OP_HALT, OP_RET, OP_SHL, OP_SHR, OP_ROL, OP_ROR, OP_NAND, OP_AND, OP_OR, OP_XOR, OP_LOAD, OP_STOR, OP_BREQ, OP_BRNE, OP_CREQ, OP_CRNE, reduceIte] at h
      rw [if_neg (by decide), if_neg (by decide), if_neg (by decide), if_neg (by decide), if_neg (by decide), if_neg (by decide), if_neg (by decide), if_neg (by decide), if_neg (by decide), if_neg (by decide), if_neg (by decide), if_neg (by decide), if_neg (by decide), if_neg (by decide)] at h
      simp only [Option.bind_eq_some, Option.map_eq_some'] at h
      obtain ⟨va, hva, vb, hvb, rfl⟩ := h
      split <;> rfl
    · simp only [exec, OP_HALT, OP_RET, OP_SHL, OP_SHR, OP_ROL, OP_ROR, OP_NAND, OP_AND, OP_OR, OP_XOR, OP_LOAD, OP_STOR, OP_BREQ, OP_BRNE, OP_CREQ, OP_CRNE, reduceIte] at h
      rw [if_neg (by decide), if_neg (by decide), if_neg (by decide), if_neg (by decide), if_neg (by decide), if_neg (by decide), if_neg (by decide), if_neg (by decide), if_neg (by decide), if_neg (by decide), if_neg (by decide), if_neg (by decide), if_neg (by decide), if_neg (by decide), if_neg (by decide)] at h
      simp only [Option.bind_eq_some, Option.map_eq_some'] at h
      obtain ⟨va, hva, vb, hvb, rfl⟩ := h
      split <;> rfl
    · simp only [exec, OP_HALT, OP_RET, OP_SHL, OP_SHR, OP_ROL, OP_ROR, OP_NAND, OP_AND, OP_OR, OP_XOR, OP_LOAD, OP_STOR, OP_BREQ, OP_BRNE, OP_CREQ, OP_CRNE, reduceIte] at h
      rw [if_neg (by decide), if_neg (by decide), if_neg (by decide), if_neg (by decide), if_neg (by decide), if_neg (by decide), if_neg (by decide), if_neg (by decide), if_neg (by decide), if_neg (by decide), if_neg (by decide), if_neg (by decide)] at h
      simp only [Option.bind_eq_some, Option.map_eq_some'] at h
      obtain ⟨va, hva, vb, hvb, rfl⟩ := h
      split <;> rfl
    · simp only [exec, OP_HALT, OP_RET, OP_SHL, OP_SHR, OP_ROL, OP_ROR, OP_NAND, OP_AND, OP_OR, OP_XOR, OP_LOAD, OP_STOR, OP_BREQ, OP_BRNE, OP_CREQ, OP_CRNE, reduceIte] at h
      rw [if_neg (by decide), if_neg (by decide), if_neg (by decide), if_neg (by decide), if_neg (by decide), if_neg (by decide), if_neg (by decide), if_neg (by decide), if_neg (by decide), if_neg (by decide), if_neg (by decide), if_neg (by decide), if_neg (by decide)] at h
      simp only [Option.bind_eq_some, Option.map_eq_some'] at h
      obtain ⟨va, hva, vb, hvb, rfl⟩ := h
      split <;> rfl
  · rw [exec_unassigned c op r_a r_b addr (by omega)] at h
    exact absurd h (by simp)




/-- C10: from a non-halted state, a successful `step` sets `is_halted`
exactly when the fetched opcode nibble is HALT (0x0); no successful `step`
ever clears the flag once it is true, and `load`, `mem_read`, `mem_write`
never change it at all. -/
theorem halt_flag_spec (c : Core) :
    (∀ c2, step c = some c2 →
      (c.is_halted = false → (c2.is_halted = true ↔ c.memory c.regs.ip / 16 % 16 = 0)) ∧
      (c.is_halted = true → c2.is_halted = true)) ∧
    (∀ data c2, load c data = some c2 → c2.is_halted = c.is_halted) ∧
    (∀ a p, mem_read c a = some p → p.2.is_halted = c.is_halted) ∧
    (∀ a v c2, mem_write c a v = some c2 → c2.is_halted = c.is_halted) := by
  refine ⟨?_, ?_, ?_, ?_⟩
  · intro c2 hstep
    unfold step at hstep
    obtain ⟨d, hd, hexec⟩ := Option.bind_eq_some.mp hstep
    obtain ⟨hop, -, -, -, -, hhal, -, -⟩ := decode_facts c d hd
    have hh := exec_halted _ _ _ _ _ _ hexec
    rw [hhal, hop] at hh
    constructor
    · intro hfalse
      rw [hh, hfalse]
      by_cases hz : c.memory c.regs.ip / 16 % 16 = 0 <;> simp [hz]
    · intro htrue
      rw [hh, htrue]
      split <;> rfl
  · intro data c2 hl
    unfold load at hl
    split_ifs at hl
    obtain rfl := Option.some.inj hl
    rfl
  · exact fun a p hp => mem_read_halted c a p hp
  · exact fun a v c2 hw => mem_write_halted c a v c2 hw

/-- Witness for C10: stepping the zero core (opcode HALT at address 0)
from the non-halted state sets the flag. -/
theorem halt_flag_spec_witness :
    cZero.is_halted = false ∧ cZero.memory cZero.regs.ip / 16 % 16 = 0 ∧
    ∃ c2, step cZero = some c2 ∧ c2.is_halted = true := by
  have hs : ∃ c2, step cZero = some c2 := ⟨_, rfl⟩
  obtain ⟨c2, h⟩ := hs
  exact ⟨rfl, by decide, c2, h, (((halt_flag_spec cZero).1 c2 h).1 rfl).2 (by decide)⟩

/-- C5 counterexample: on a halted core whose memory is zeroed, `step`
is neither refused (it returns `some`) nor a no-op (it advances `ip`
from 0 to 1). The driver loop is what prevents this call, not `step`. -/
theorem step_on_halted_not_refused_or_noop :
    ¬ (step cHalted = none ∨ step cHalted = some cHalted) := by
  have e : (step cHalted).map (fun x => x.regs.ip) = some 1 := rfl
  rintro (h | h) <;> rw [h] at e
  · exact Option.noConfusion e
  · exact absurd e (by decide)

/-- C5 amended: `step` does not check `is_halted`; invoked on a halted
state it executes the next instruction normally, but no successful step
can ever clear the flag: once halted, always halted. The driver loop
checks the flag between steps and never invokes `step` on a halted core. -/
theorem step_preserves_halted (c c2 : Core) (hh : c.is_halted = true)
    (h : step c = some c2) : c2.is_halted = true := by
  unfold step at h
  obtain ⟨d, hd, hexec⟩ := Option.bind_eq_some.mp h
  obtain ⟨-, -, -, -, -, hhal, -, -⟩ := decode_facts c d hd
  have he := exec_halted _ _ _ _ _ _ hexec
  rw [hhal, hh] at he
  rw [he]
  split <;> rfl

/-- Witness for C5 (amended): a step from the concrete halted core leaves
the flag set. -/
theorem step_preserves_halted_witness :
    cHalted.is_halted = true ∧ ∃ c2, step cHalted = some c2 ∧ c2.is_halted = true := by
  have hs : ∃ c2, step cHalted = some c2 := ⟨_, rfl⟩
  obtain ⟨c2, h⟩ := hs
  exact ⟨rfl, c2, h, step_preserves_halted cHalted c2 rfl h⟩




theorem exec_eq_execT (c : Core) (op r_a r_b addr : Nat)
    (hop : op < 16) (hra : r_a < 4) (hrb : r_b < 4) :
    exec c op r_a r_b addr = execT c ⟨op % 16, by omega⟩ r_a r_b addr := by
  interval_cases op
  · exact exec_halt c r_a r_b addr
  · exact exec_ret c r_a r_b addr
  · exact exec_shl c r_a r_b addr hra
  · exact exec_shr c r_a r_b addr hra
  · exact exec_rol c r_a r_b addr hra
  · exact exec_ror c r_a r_b addr hra
  · exact exec_nand c r_a r_b addr hra hrb
  · exact exec_and c r_a r_b addr hra hrb
  · exact exec_or c r_a r_b addr hra hrb
  · exact exec_xor c r_a r_b addr hra hrb
  · exact exec_load c r_a r_b addr hra
  · exact exec_stor c r_a r_b addr hra
  · exact exec_breq c r_a r_b addr hra hrb
  · exact exec_brne c r_a r_b addr hra hrb
  · exact exec_creq c r_a r_b addr hra hrb
  · exact exec_crne c r_a r_b addr hra hrb

/-- C9: the decoded register selectors are 2-bit fields and the opcode is
a full nibble, so on every core `step` coincides with `stepT`, the
variant whose register file has no range check at all and whose opcode
dispatch has no unassigned arm: the `InvalidRegister` and
unassigned-opcode error branches are unreachable. -/
theorem step_eq_stepT (c : Core) : step c = stepT c := by
  unfold step stepT
  rcases hd : decode c with _ | d
  · rfl
  · simp only [Option.some_bind]
    obtain ⟨hop, hra, hrb, -, -, -, -, -⟩ := decode_facts c d hd
    exact exec_eq_execT d.core d.opcode d.r_a d.r_b d.addr (by omega) (by omega) (by omega)


end Thingamajig
